import Mathlib

/-!
Shallow embedding of the reflection engine and the response normalizer of the
llm_manager repository (src/llm_manager/reflection.py and src/llm_manager/utils.py),
together with theorems settling the specification claims about them.

Python dictionaries holding token counts are modelled as association lists
`List (String × Int)`; `dict.get k default` becomes `dictGet`.  The generation
capability (`BaseLLMClient.generate`) is modelled as a function from the call
index (0 for the initial round, k for reflection round k) and the prompt string
to `Except String LLMResponse`: an `Except.error` models a provider exception
propagating out of `generate`.
-/

namespace LLMManager

/-- Python `d.get(k, default)` over an association-list model of a dict. -/
def dictGet (d : List (String × Int)) (k : String) (default : Int) : Int :=
  match d.find? (fun p => p.1 == k) with
  | some p => p.2
  | none => default

/-- The standardized response format (utils.py `LLMResponse`). -/
structure LLMResponse where
  text : String
  usage : List (String × Int)
  stop_reason : Option String
  deriving DecidableEq, Repr

/-- utils.py `normalize_usage(usage_dict, provider)`: normalize provider-specific
usage keys to the canonical `input_tokens` / `output_tokens` / `total_tokens`. -/
def normalize_usage (usage_dict : List (String × Int)) (provider : String := "generic") :
    List (String × Int) :=
  if provider == "bedrock" then
    [("input_tokens", dictGet usage_dict "inputTokens" 0),
     ("output_tokens", dictGet usage_dict "outputTokens" 0),
     ("total_tokens", dictGet usage_dict "inputTokens" 0 + dictGet usage_dict "outputTokens" 0)]
  else if provider == "openai" || provider == "ollama" then
    [("input_tokens", dictGet usage_dict "prompt_tokens" (dictGet usage_dict "inputTokens" 0)),
     ("output_tokens",
       dictGet usage_dict "completion_tokens" (dictGet usage_dict "outputTokens" 0)),
     ("total_tokens", dictGet usage_dict "total_tokens" 0)]
  else
    [("input_tokens",
       dictGet usage_dict "input_tokens"
         (dictGet usage_dict "inputTokens" (dictGet usage_dict "prompt_tokens" 0))),
     ("output_tokens",
       dictGet usage_dict "output_tokens"
         (dictGet usage_dict "outputTokens" (dictGet usage_dict "completion_tokens" 0))),
     ("total_tokens", dictGet usage_dict "total_tokens" 0)]

/-- reflection.py `ReflectionStrategy`: the closed five-tag strategy catalog. -/
inductive ReflectionStrategy where
  | SELF_CRITIQUE
  | ALTERNATIVE_GENERATION
  | CONFIDENCE_ASSESSMENT
  | VERIFICATION
  | ADVERSARIAL
  deriving DecidableEq, Repr

/-- Python `s.value` for a `ReflectionStrategy` member. -/
def ReflectionStrategy.value : ReflectionStrategy → String
  | .SELF_CRITIQUE => "self_critique"
  | .ALTERNATIVE_GENERATION => "alternative_generation"
  | .CONFIDENCE_ASSESSMENT => "confidence_assessment"
  | .VERIFICATION => "verification"
  | .ADVERSARIAL => "adversarial"

/-- Python `ReflectionStrategy(s)` value lookup: `some` member whose `value`
matches, `none` models the `ValueError` raised on an unknown value. -/
def ReflectionStrategy.fromString (s : String) : Option ReflectionStrategy :=
  if s == "self_critique" then some .SELF_CRITIQUE
  else if s == "alternative_generation" then some .ALTERNATIVE_GENERATION
  else if s == "confidence_assessment" then some .CONFIDENCE_ASSESSMENT
  else if s == "verification" then some .VERIFICATION
  else if s == "adversarial" then some .ADVERSARIAL
  else none

/-- Python `[s.value for s in ReflectionStrategy]`, in member-definition order. -/
def validStrategyValues : List String :=
  ["self_critique", "alternative_generation", "confidence_assessment",
   "verification", "adversarial"]

/-- Python `repr` of a list of strings, as interpolated into the invalid-strategy
error message (`\x27` is the ASCII apostrophe). -/
def pyStrListRepr (xs : List String) : String :=
  "[" ++ String.intercalate ", " (xs.map (fun s => "\x27" ++ s ++ "\x27")) ++ "]"

/-- The message of the `ValueError` raised by `reflect` for an unknown strategy. -/
def invalidStrategyMessage (reflection_strategy : String) : String :=
  "Invalid reflection strategy \x27" ++ reflection_strategy ++
    "\x27. Valid options: " ++ pyStrListRepr validStrategyValues

/-- prompt_library.py `self_critique_prompt_template`, after `textwrap.dedent`
(no common margin; whitespace-only lines emptied) and `.strip()`, with the
`format` placeholders substituted. -/
def self_critique_prompt_template (query response : String) : String :=
  "Critique your previous response and suggest improvements:\n    Question: \n " ++ query ++
  "\n\n    Your previous response: \n " ++ response ++
  "\n\n    Your task is to critically analyze your response. Identify any potential errors, oversights, or areas where the reasoning could be strengthened. Then provide an improved response that addresses these issues."

/-- prompt_library.py `alternative_generation_prompt_template`, post-dedent/strip,
placeholders substituted. -/
def alternative_generation_prompt_template (query response : String) : String :=
  "Consider your previous response to this question:\n\n    Question: " ++ query ++
  "\n\n    Your previous response:\n\n    " ++ response ++
  "\n\n    Generate alternative approaches or perspectives that you did not consider initially. Then synthesize these alternatives with your original thinking to provide a more comprehensive response."

/-- prompt_library.py `confidence_assessment_prompt_template`, post-dedent/strip,
placeholders substituted. -/
def confidence_assessment_prompt_template (query response : String) : String :=
  "Evaluate your previous response to this question:\n\n    Question: " ++ query ++
  "\n\n    Your previous response:\n\n    " ++ response ++
  "\n\n    For each major claim or conclusion in your response, assess your confidence level and identify areas of uncertainty. Focus your reflection on the low-confidence areas and provide additional analysis or revised reasoning where needed."

/-- prompt_library.py `verification_prompt_template`, post-dedent/strip,
placeholders substituted. -/
def verification_prompt_template (query response : String) : String :=
  "Verify your previous response to this question:\n\n    Question: " ++ query ++
  "\n\n    Your previous response:\n    " ++ response ++
  "\n\n    Check whether your response satisfies these criteria: internal logical consistency, completeness in addressing all aspects of the question, and accuracy of any factual claims. Identify any failures and provide a corrected response."

/-- prompt_library.py `adversarial_prompt_template`, post-dedent/strip,
placeholders substituted. -/
def adversarial_prompt_template (query response : String) : String :=
  "Challenge your previous response to this question:\n\n    Question: " ++ query ++
  "\n\n    Your previous response:\n\n    " ++ response ++
  "\n\n    Adopt a skeptical perspective and argue against your own conclusions. What counterarguments or alternative explanations exist? After considering these challenges, provide a refined response that addresses the strongest objections."

/-- reflection.py `ReflectionPromptBuilder.build_prompt`: dispatch on the strategy
to the per-strategy template renderer. -/
def build_prompt (strategy : ReflectionStrategy)
    (original_query previous_response : String) : String :=
  match strategy with
  | .SELF_CRITIQUE => self_critique_prompt_template original_query previous_response
  | .ALTERNATIVE_GENERATION =>
      alternative_generation_prompt_template original_query previous_response
  | .CONFIDENCE_ASSESSMENT =>
      confidence_assessment_prompt_template original_query previous_response
  | .VERIFICATION => verification_prompt_template original_query previous_response
  | .ADVERSARIAL => adversarial_prompt_template original_query previous_response

/-- One entry of `ReflectionResult.iterations` (the dict appended each round). -/
structure IterationRecord where
  iteration : Nat
  prompt : String
  response : String
  deriving DecidableEq, Repr

/-- reflection.py `ReflectionResult`. -/
structure ReflectionResult where
  original_query : String
  iterations : List IterationRecord
  final_response : String
  strategy_used : ReflectionStrategy
  total_tokens : Int
  deriving DecidableEq, Repr

/-- The two failure modes of `reflect`: the `ValueError` for an unknown strategy
string, and a propagated generation failure. -/
inductive ReflectError where
  | invalidStrategy (message : String)
  | generationFailure (e : String)
  deriving DecidableEq, Repr

/-- A generation capability: call index (0 = initial round, k = reflection
round k) and prompt to outcome. -/
def GenCapability : Type := Nat → String → Except String LLMResponse

/-- The `for iteration_num in range(num_iterations)` loop of
`ReflectiveLLMManager.reflect`, with the loop state (previous response, the two
token counters, the accumulated iteration records, completed-iteration count)
passed explicitly; `remaining` counts the iterations still to run. -/
def reflectLoop (gen : GenCapability) (strategy_enum : ReflectionStrategy)
    (user_query : String) (previous_response : LLMResponse)
    (total_input_tokens total_output_tokens : Int)
    (iteration_responses : List IterationRecord) (iterNum : Nat) :
    Nat → Except String ReflectionResult
  | 0 =>
    .ok { original_query := user_query,
          iterations := iteration_responses,
          final_response := previous_response.text,
          strategy_used := strategy_enum,
          total_tokens := total_output_tokens + total_input_tokens }
  | remaining + 1 =>
    let reflection_prompt := build_prompt strategy_enum user_query previous_response.text
    match gen (iterNum + 1) reflection_prompt with
    | .error e => .error e
    | .ok reflection_response =>
        reflectLoop gen strategy_enum user_query reflection_response
          (total_input_tokens + dictGet reflection_response.usage "input_tokens" 0)
          (total_output_tokens + dictGet reflection_response.usage "output_tokens" 0)
          (iteration_responses ++
            [{ iteration := iterNum + 1,
               prompt := reflection_prompt,
               response := reflection_response.text }])
          (iterNum + 1) remaining

/-- reflection.py `ReflectiveLLMManager.reflect`.  `num_iterations` is a Python
int, hence `Int`; `range(num_iterations)` runs `num_iterations.toNat` times. -/
def reflect (gen : GenCapability) (user_query reflection_strategy : String)
    (num_iterations : Int) : Except ReflectError ReflectionResult :=
  match ReflectionStrategy.fromString reflection_strategy with
  | none => .error (.invalidStrategy (invalidStrategyMessage reflection_strategy))
  | some strategy_enum =>
    match gen 0 user_query with
    | .error e => .error (.generationFailure e)
    | .ok previous_response =>
      match reflectLoop gen strategy_enum user_query previous_response
              (dictGet previous_response.usage "input_tokens" 0)
              (dictGet previous_response.usage "output_tokens" 0)
              [] 0 num_iterations.toNat with
      | .error e => .error (.generationFailure e)
      | .ok r => .ok r

/-! Specification layer: the chain of generation calls a run of the loop makes,
and the records it produces, described from the outside. -/

/-- Tokens a single call contributes to the running counters:
`usage.get("input_tokens", 0) + usage.get("output_tokens", 0)`. -/
def callTokens (r : LLMResponse) : Int :=
  dictGet r.usage "input_tokens" 0 + dictGet r.usage "output_tokens" 0

/-- Sum of `callTokens` over a list of responses. -/
def sumCallTokens : List LLMResponse → Int
  | [] => 0
  | r :: rs => callTokens r + sumCallTokens rs

/-- Text of the last response of `rs`, or of `previous` when `rs` is empty. -/
def lastText (previous : LLMResponse) : List LLMResponse → String
  | [] => previous.text
  | r :: rs => lastText r rs

/-- `isChain gen st q prev iterNum rs` says: starting from response `prev` with
`iterNum` iterations already completed, the generation capability answers each
successive reflection prompt with the corresponding element of `rs`. -/
def isChain (gen : GenCapability) (st : ReflectionStrategy) (q : String) :
    LLMResponse → Nat → List LLMResponse → Prop
  | _, _, [] => True
  | prev, iterNum, r :: rs =>
      gen (iterNum + 1) (build_prompt st q prev.text) = .ok r ∧
        isChain gen st q r (iterNum + 1) rs

/-- The iteration records produced by a chain of responses `rs`. -/
def chainRecords (st : ReflectionStrategy) (q : String) :
    LLMResponse → Nat → List LLMResponse → List IterationRecord
  | _, _, [] => []
  | prev, iterNum, r :: rs =>
      { iteration := iterNum + 1,
        prompt := build_prompt st q prev.text,
        response := r.text } :: chainRecords st q r (iterNum + 1) rs

theorem chainRecords_length (st : ReflectionStrategy) (q : String) :
    ∀ (rs : List LLMResponse) (prev : LLMResponse) (iterNum : Nat),
      (chainRecords st q prev iterNum rs).length = rs.length := by
  intro rs
  induction rs with
  | nil => intro prev iterNum; rfl
  | cons r rs ih => intro prev iterNum; simp [chainRecords, ih]

/-- Every successful run of the loop is described by a chain: the master
characterization of `reflectLoop`. -/
theorem reflectLoop_ok_spec (gen : GenCapability) (st : ReflectionStrategy) (q : String) :
    ∀ (remaining : Nat) (prev : LLMResponse) (tin tout : Int)
      (acc : List IterationRecord) (iterNum : Nat) (r : ReflectionResult),
      reflectLoop gen st q prev tin tout acc iterNum remaining = .ok r →
      ∃ rs : List LLMResponse,
        rs.length = remaining ∧
        isChain gen st q prev iterNum rs ∧
        r.original_query = q ∧
        r.strategy_used = st ∧
        r.iterations = acc ++ chainRecords st q prev iterNum rs ∧
        r.final_response = lastText prev rs ∧
        r.total_tokens = tout + tin + sumCallTokens rs := by
  intro remaining
  induction remaining with
  | zero =>
    intro prev tin tout acc iterNum r h
    simp only [reflectLoop, Except.ok.injEq] at h
    subst h
    exact ⟨[], rfl, trivial, rfl, rfl, by simp [chainRecords], rfl, by simp [sumCallTokens]⟩
  | succ m ih =>
    intro prev tin tout acc iterNum r h
    simp only [reflectLoop] at h
    cases hg : gen (iterNum + 1) (build_prompt st q prev.text) with
    | error e => rw [hg] at h; cases h
    | ok resp =>
      rw [hg] at h
      obtain ⟨rs, hlen, hchain, hq, hst, hiters, hfin, htot⟩ := ih _ _ _ _ _ _ h
      refine ⟨resp :: rs, by simp [hlen], ⟨hg, hchain⟩, hq, hst, ?_, hfin, ?_⟩
      · rw [hiters]; simp [chainRecords]
      · rw [htot]; simp only [sumCallTokens, callTokens]; ring

/-- Every successful `reflect` call is described by an initial response and a
chain of reflection responses. -/
theorem reflect_ok_spec (gen : GenCapability) (q s : String) (n : Int)
    (st : ReflectionStrategy) (r : ReflectionResult)
    (hs : ReflectionStrategy.fromString s = some st)
    (h : reflect gen q s n = .ok r) :
    ∃ (r0 : LLMResponse) (rs : List LLMResponse),
      gen 0 q = .ok r0 ∧
      rs.length = n.toNat ∧
      isChain gen st q r0 0 rs ∧
      r.original_query = q ∧
      r.strategy_used = st ∧
      r.iterations = chainRecords st q r0 0 rs ∧
      r.final_response = lastText r0 rs ∧
      r.total_tokens = callTokens r0 + sumCallTokens rs := by
  unfold reflect at h
  rw [hs] at h
  dsimp only at h
  cases hg : gen 0 q with
  | error e => rw [hg] at h; dsimp only at h; cases h
  | ok r0 =>
    rw [hg] at h
    dsimp only at h
    cases hl : reflectLoop gen st q r0 (dictGet r0.usage "input_tokens" 0)
        (dictGet r0.usage "output_tokens" 0) [] 0 n.toNat with
    | error e => rw [hl] at h; cases h
    | ok r2 =>
      rw [hl] at h
      cases h
      obtain ⟨rs, hlen, hchain, hq, hst, hiters, hfin, htot⟩ :=
        reflectLoop_ok_spec gen st q _ _ _ _ _ _ _ hl
      refine ⟨r0, rs, rfl, hlen, hchain, hq, hst, by simpa using hiters, hfin, ?_⟩
      rw [htot]; unfold callTokens; ring

theorem chainRecords_iteration (st : ReflectionStrategy) (q : String) :
    ∀ (rs : List LLMResponse) (prev : LLMResponse) (iterNum : Nat) (j : Nat)
      (h : j < (chainRecords st q prev iterNum rs).length),
      ((chainRecords st q prev iterNum rs).get ⟨j, h⟩).iteration = iterNum + j + 1 := by
  intro rs
  induction rs with
  | nil => intro prev iterNum j h; simp [chainRecords] at h
  | cons r rs ih =>
    intro prev iterNum j h
    cases j with
    | zero => rfl
    | succ j' =>
      have h' : j' < (chainRecords st q r (iterNum + 1) rs).length := by
        simpa [chainRecords] using h
      have := ih r (iterNum + 1) j' h'
      simp only [chainRecords, List.get] at this ⊢
      omega

theorem chainRecords_prompt_zero (st : ReflectionStrategy) (q : String) :
    ∀ (rs : List LLMResponse) (prev : LLMResponse) (iterNum : Nat)
      (h : 0 < (chainRecords st q prev iterNum rs).length),
      ((chainRecords st q prev iterNum rs).get ⟨0, h⟩).prompt =
        build_prompt st q prev.text := by
  intro rs prev iterNum h
  cases rs with
  | nil => simp [chainRecords] at h
  | cons r rs => rfl

theorem chainRecords_prompt_succ (st : ReflectionStrategy) (q : String) :
    ∀ (rs : List LLMResponse) (prev : LLMResponse) (iterNum : Nat) (j : Nat)
      (h : j + 1 < (chainRecords st q prev iterNum rs).length),
      ((chainRecords st q prev iterNum rs).get ⟨j + 1, h⟩).prompt =
        build_prompt st q
          (((chainRecords st q prev iterNum rs).get ⟨j, by omega⟩).response) := by
  intro rs
  induction rs with
  | nil => intro prev iterNum j h; simp [chainRecords] at h
  | cons r rs ih =>
    intro prev iterNum j h
    cases j with
    | zero =>
      have h' : 0 < (chainRecords st q r (iterNum + 1) rs).length := by
        simpa [chainRecords] using h
      simpa [chainRecords] using chainRecords_prompt_zero st q rs r (iterNum + 1) h'
    | succ j' =>
      have h' : j' + 1 < (chainRecords st q r (iterNum + 1) rs).length := by
        simpa [chainRecords] using h
      simpa [chainRecords] using ih r (iterNum + 1) j' h'

/-- Every recorded prompt was sent to the generation capability at the matching
call index and answered with the recorded response text. -/
theorem isChain_get (gen : GenCapability) (st : ReflectionStrategy) (q : String) :
    ∀ (rs : List LLMResponse) (prev : LLMResponse) (iterNum : Nat),
      isChain gen st q prev iterNum rs →
      ∀ (j : Nat) (hj : j < rs.length)
        (hj2 : j < (chainRecords st q prev iterNum rs).length),
        gen (iterNum + j + 1) (((chainRecords st q prev iterNum rs).get ⟨j, hj2⟩).prompt) =
          .ok (rs.get ⟨j, hj⟩) ∧
        ((chainRecords st q prev iterNum rs).get ⟨j, hj2⟩).response =
          (rs.get ⟨j, hj⟩).text := by
  intro rs
  induction rs with
  | nil => intro prev iterNum _ j hj; simp at hj
  | cons r rs ih =>
    intro prev iterNum hchain j hj hj2
    obtain ⟨hg, hrest⟩ := hchain
    cases j with
    | zero => exact ⟨hg, rfl⟩
    | succ j' =>
      have hj' : j' < rs.length := by simpa using hj
      have hj2' : j' < (chainRecords st q r (iterNum + 1) rs).length := by
        simpa [chainRecords] using hj2
      have := ih r (iterNum + 1) hrest j' hj' hj2'
      have harith : iterNum + 1 + j' + 1 = iterNum + (j' + 1) + 1 := by omega
      rw [harith] at this
      simpa [chainRecords] using this

theorem chainRecords_getLast (st : ReflectionStrategy) (q : String) :
    ∀ (rs : List LLMResponse) (prev : LLMResponse) (iterNum : Nat), rs ≠ [] →
      ∃ rec, (chainRecords st q prev iterNum rs).getLast? = some rec ∧
        rec.response = lastText prev rs := by
  intro rs
  induction rs with
  | nil => intro prev iterNum h; exact absurd rfl h
  | cons r rs ih =>
    intro prev iterNum _
    cases rs with
    | nil => exact ⟨_, rfl, rfl⟩
    | cons r' rs' =>
      obtain ⟨rec, h1, h2⟩ := ih r (iterNum + 1) (by simp)
      refine ⟨rec, ?_, h2⟩
      simpa [chainRecords, List.getLast?_cons_cons] using h1

/-- A strategy string outside the catalog resolves to `none` (Python raises). -/
theorem fromString_eq_none (s : String) (hs : s ∉ validStrategyValues) :
    ReflectionStrategy.fromString s = none := by
  simp only [validStrategyValues, List.mem_cons, List.mem_singleton, not_or] at hs
  obtain ⟨h1, h2, h3, h4, h5⟩ := hs
  simp [ReflectionStrategy.fromString, h1, h2, h3, h4, h5]

/-- A catalog member resolves to itself. -/
theorem fromString_value (st : ReflectionStrategy) :
    ReflectionStrategy.fromString st.value = some st := by
  cases st <;> rfl

/-- If the loop's next generation call after a successful chain `rs` fails, the
whole loop run returns that error. -/
theorem reflectLoop_error_of_chain_fail (gen : GenCapability) (st : ReflectionStrategy)
    (q : String) :
    ∀ (rs : List LLMResponse) (prev : LLMResponse) (tin tout : Int)
      (acc : List IterationRecord) (iterNum remaining : Nat) (e : String),
      isChain gen st q prev iterNum rs →
      rs.length < remaining →
      gen (iterNum + rs.length + 1) (build_prompt st q (lastText prev rs)) = .error e →
      reflectLoop gen st q prev tin tout acc iterNum remaining = .error e := by
  intro rs
  induction rs with
  | nil =>
    intro prev tin tout acc iterNum remaining e _ hlt hg
    cases remaining with
    | zero => omega
    | succ m =>
      simp only [reflectLoop]
      have : iterNum + List.length ([] : List LLMResponse) + 1 = iterNum + 1 := by simp
      rw [this] at hg
      simp only [lastText] at hg
      rw [hg]
  | cons r rs ih =>
    intro prev tin tout acc iterNum remaining e hchain hlt hg
    obtain ⟨hg0, hrest⟩ := hchain
    cases remaining with
    | zero => omega
    | succ m =>
      simp only [reflectLoop]
      rw [hg0]
      apply ih r _ _ _ (iterNum + 1) m e hrest (by simpa using hlt)
      have : iterNum + 1 + rs.length + 1 = iterNum + (r :: rs).length + 1 := by
        simp; omega
      rw [this]
      exact hg

/-- Decompose the invalid-strategy message around one occurring tag. -/
theorem msg_decomp (s t a2 b2 : String)
    (h : pyStrListRepr validStrategyValues = a2 ++ (t ++ b2)) :
    ∃ a b : String, invalidStrategyMessage s = a ++ (t ++ b) := by
  refine ⟨("Invalid reflection strategy \x27" ++ s ++ "\x27. Valid options: ") ++ a2, b2, ?_⟩
  unfold invalidStrategyMessage
  rw [h, ← String.append_assoc]

/-- A stub response with fixed usage, tagged by the call index. -/
def stubResponse (k : Nat) : LLMResponse :=
  { text := "r" ++ toString k,
    usage := [("input_tokens", 1), ("output_tokens", 2), ("total_tokens", 3)],
    stop_reason := some "stop" }

/-- A stub generation capability that always succeeds. -/
def stubGen : GenCapability := fun k _ => .ok (stubResponse k)

/-- A stub generation capability that fails on the very first call. -/
def failingGen0 : GenCapability := fun _ _ => .error "provider down"

/-- A stub generation capability that succeeds on calls 0 and 1 and fails on
call 2 (the second reflection round). -/
def failingGen2 : GenCapability := fun k _ =>
  if k < 2 then .ok (stubResponse k) else .error "provider down"

/-- Claim C1: for every successful `reflect` call with `num_iterations = N ≥ 0`
and any sequence of responses from the generation capability, the returned
`total_tokens` is the exact integer sum of `input_tokens + output_tokens`
(each key defaulting to 0 when absent) over the round-0 call and all N
reflection calls; the per-call `total_tokens` field plays no role. -/
theorem reflect_total_tokens_sum (gen : GenCapability) (q s : String) (n : Int)
    (st : ReflectionStrategy) (r : ReflectionResult)
    (hs : ReflectionStrategy.fromString s = some st)
    (h : reflect gen q s n = .ok r) :
    ∃ (r0 : LLMResponse) (rs : List LLMResponse),
      gen 0 q = .ok r0 ∧ rs.length = n.toNat ∧ isChain gen st q r0 0 rs ∧
      r.total_tokens = callTokens r0 + sumCallTokens rs := by
  obtain ⟨r0, rs, h0, hlen, hchain, _, _, _, _, htot⟩ := reflect_ok_spec gen q s n st r hs h
  exact ⟨r0, rs, h0, hlen, hchain, htot⟩

theorem reflect_total_tokens_sum_witness :
    ∃ r, reflect stubGen "q" "self_critique" 2 = .ok r ∧
      ∃ (r0 : LLMResponse) (rs : List LLMResponse),
        stubGen 0 "q" = .ok r0 ∧ rs.length = (2 : Int).toNat ∧
        isChain stubGen .SELF_CRITIQUE "q" r0 0 rs ∧
        r.total_tokens = callTokens r0 + sumCallTokens rs :=
  ⟨_, rfl, reflect_total_tokens_sum stubGen "q" "self_critique" 2 .SELF_CRITIQUE _ rfl rfl⟩

/-- Claim C2: for every successful `reflect` call with `num_iterations = N ≥ 0`,
the `iterations` list has exactly N records and `iterations[i].iteration = i + 1`
(1-based, contiguous, chronological). -/
theorem reflect_iterations_indexing (gen : GenCapability) (q s : String) (n : Int)
    (st : ReflectionStrategy) (r : ReflectionResult)
    (hs : ReflectionStrategy.fromString s = some st)
    (h : reflect gen q s n = .ok r) :
    r.iterations.length = n.toNat ∧
    (0 ≤ n → (r.iterations.length : Int) = n) ∧
    ∀ (i : Nat) (hi : i < r.iterations.length),
      (r.iterations.get ⟨i, hi⟩).iteration = i + 1 := by
  obtain ⟨r0, rs, h0, hlen, hchain, _, _, hiters, _, _⟩ := reflect_ok_spec gen q s n st r hs h
  have hl : r.iterations.length = n.toNat := by
    rw [hiters, chainRecords_length, hlen]
  refine ⟨hl, fun hn => by rw [hl]; exact Int.toNat_of_nonneg hn, ?_⟩
  intro i
  rw [hiters]
  intro hi
  have := chainRecords_iteration st q rs r0 0 i hi
  omega

theorem reflect_iterations_indexing_witness :
    ∃ r, reflect stubGen "q" "confidence_assessment" 3 = .ok r ∧
      (r.iterations.length = (3 : Int).toNat ∧
       (0 ≤ (3 : Int) → (r.iterations.length : Int) = 3) ∧
       ∀ (i : Nat) (hi : i < r.iterations.length),
         (r.iterations.get ⟨i, hi⟩).iteration = i + 1) :=
  ⟨_, rfl, reflect_iterations_indexing stubGen "q" "confidence_assessment" 3
    .CONFIDENCE_ASSESSMENT _ rfl rfl⟩

/-- Claim C3: for every successful `reflect` call, when N > 0 the
`final_response` is the response text of the last iteration record; when N = 0
the `iterations` list is empty, `final_response` is the round-0 response text,
and the round-0 tokens are still counted in `total_tokens`. -/
theorem reflect_final_response_selection (gen : GenCapability) (q s : String) (n : Int)
    (st : ReflectionStrategy) (r : ReflectionResult)
    (hs : ReflectionStrategy.fromString s = some st)
    (h : reflect gen q s n = .ok r) :
    (0 < n → ∃ rec, r.iterations.getLast? = some rec ∧ r.final_response = rec.response) ∧
    (n = 0 → r.iterations = [] ∧ ∃ r0 : LLMResponse, gen 0 q = .ok r0 ∧
      r.final_response = r0.text ∧ r.total_tokens = callTokens r0) := by
  obtain ⟨r0, rs, h0, hlen, hchain, _, _, hiters, hfin, htot⟩ :=
    reflect_ok_spec gen q s n st r hs h
  constructor
  · intro hn
    have hne : rs ≠ [] := by
      intro hrs
      rw [hrs] at hlen
      simp only [List.length_nil] at hlen
      omega
    obtain ⟨rec, h1, h2⟩ := chainRecords_getLast st q rs r0 0 hne
    refine ⟨rec, by rw [hiters]; exact h1, ?_⟩
    rw [hfin]
    exact h2.symm
  · intro hn
    subst hn
    have hrs : rs = [] := List.length_eq_zero.mp (by simpa using hlen)
    subst hrs
    refine ⟨by simpa [chainRecords] using hiters, r0, h0,
      by simpa [lastText] using hfin, by simpa [sumCallTokens] using htot⟩

theorem reflect_final_response_selection_witness :
    (∃ r, reflect stubGen "q" "alternative_generation" 2 = .ok r ∧
       ∃ rec, r.iterations.getLast? = some rec ∧ r.final_response = rec.response) ∧
    (∃ r, reflect stubGen "q" "alternative_generation" 0 = .ok r ∧
       r.iterations = [] ∧ ∃ r0 : LLMResponse, stubGen 0 "q" = .ok r0 ∧
         r.final_response = r0.text ∧ r.total_tokens = callTokens r0) :=
  ⟨⟨_, rfl, (reflect_final_response_selection stubGen "q" "alternative_generation" 2
      .ALTERNATIVE_GENERATION _ rfl rfl).1 (by decide)⟩,
   ⟨_, rfl, (reflect_final_response_selection stubGen "q" "alternative_generation" 0
      .ALTERNATIVE_GENERATION _ rfl rfl).2 rfl⟩⟩

/-- Claim C4: a failure of any generation call (round 0 or any reflection
round) propagates out of `reflect` and no partial `ReflectionResult` is
produced; whenever a result is returned, its `total_tokens` and `iterations`
are fully consistent with the complete chain of successful calls. -/
theorem reflect_fail_fast (gen : GenCapability) (q s : String) (n : Int)
    (st : ReflectionStrategy)
    (hs : ReflectionStrategy.fromString s = some st) :
    (∀ e, gen 0 q = .error e → reflect gen q s n = .error (.generationFailure e)) ∧
    (∀ (e : String) (r0 : LLMResponse) (rs : List LLMResponse),
       gen 0 q = .ok r0 → isChain gen st q r0 0 rs → rs.length < n.toNat →
       gen (rs.length + 1) (build_prompt st q (lastText r0 rs)) = .error e →
       reflect gen q s n = .error (.generationFailure e)) ∧
    (∀ r, reflect gen q s n = .ok r →
       ∃ (r0 : LLMResponse) (rs : List LLMResponse),
         gen 0 q = .ok r0 ∧ rs.length = n.toNat ∧ isChain gen st q r0 0 rs ∧
         r.iterations = chainRecords st q r0 0 rs ∧
         r.total_tokens = callTokens r0 + sumCallTokens rs) := by
  refine ⟨?_, ?_, ?_⟩
  · intro e he
    unfold reflect
    rw [hs]
    dsimp only
    rw [he]
  · intro e r0 rs h0 hchain hlt hg
    unfold reflect
    rw [hs]
    dsimp only
    rw [h0]
    dsimp only
    have := reflectLoop_error_of_chain_fail gen st q rs r0
      (dictGet r0.usage "input_tokens" 0) (dictGet r0.usage "output_tokens" 0)
      [] 0 n.toNat e hchain hlt (by simpa using hg)
    rw [this]
  · intro r h
    obtain ⟨r0, rs, h0, hlen, hchain, _, _, hiters, _, htot⟩ :=
      reflect_ok_spec gen q s n st r hs h
    exact ⟨r0, rs, h0, hlen, hchain, hiters, htot⟩

theorem reflect_fail_fast_witness :
    reflect failingGen0 "q" "verification" 1 = .error (.generationFailure "provider down") ∧
    reflect failingGen2 "q" "verification" 3 = .error (.generationFailure "provider down") ∧
    ∃ r, reflect stubGen "q" "verification" 1 = .ok r ∧
      ∃ (r0 : LLMResponse) (rs : List LLMResponse),
        stubGen 0 "q" = .ok r0 ∧ rs.length = (1 : Int).toNat ∧
        isChain stubGen .VERIFICATION "q" r0 0 rs ∧
        r.iterations = chainRecords .VERIFICATION "q" r0 0 rs ∧
        r.total_tokens = callTokens r0 + sumCallTokens rs :=
  ⟨(reflect_fail_fast failingGen0 "q" "verification" 1 .VERIFICATION rfl).1
      "provider down" rfl,
   (reflect_fail_fast failingGen2 "q" "verification" 3 .VERIFICATION rfl).2.1
      "provider down" (stubResponse 0) [stubResponse 1] rfl ⟨rfl, trivial⟩
      (by decide) rfl,
   ⟨_, rfl, (reflect_fail_fast stubGen "q" "verification" 1 .VERIFICATION rfl).2.2 _ rfl⟩⟩

/-- Claim C5: for every strategy string outside the five-tag catalog, `reflect`
fails with the invalid-strategy error before any generation call (the outcome
is the same for every generation capability), and the error message contains
every valid strategy tag. -/
theorem reflect_invalid_strategy (gen : GenCapability) (q s : String) (n : Int)
    (hs : s ∉ validStrategyValues) :
    reflect gen q s n = .error (.invalidStrategy (invalidStrategyMessage s)) ∧
    (∀ gen2 : GenCapability, reflect gen2 q s n = reflect gen q s n) ∧
    (∀ t ∈ validStrategyValues, ∃ a b : String,
      invalidStrategyMessage s = a ++ (t ++ b)) := by
  have h0 := fromString_eq_none s hs
  refine ⟨?_, ?_, ?_⟩
  · unfold reflect; rw [h0]
  · intro gen2; unfold reflect; rw [h0]
  · intro t ht
    simp only [validStrategyValues, List.mem_cons, List.mem_singleton,
      List.not_mem_nil, or_false] at ht
    rcases ht with rfl | rfl | rfl | rfl | rfl
    · exact msg_decomp s _ "[\x27"
        "\x27, \x27alternative_generation\x27, \x27confidence_assessment\x27, \x27verification\x27, \x27adversarial\x27]"
        (by decide)
    · exact msg_decomp s _ "[\x27self_critique\x27, \x27"
        "\x27, \x27confidence_assessment\x27, \x27verification\x27, \x27adversarial\x27]"
        (by decide)
    · exact msg_decomp s _ "[\x27self_critique\x27, \x27alternative_generation\x27, \x27"
        "\x27, \x27verification\x27, \x27adversarial\x27]"
        (by decide)
    · exact msg_decomp s _
        "[\x27self_critique\x27, \x27alternative_generation\x27, \x27confidence_assessment\x27, \x27"
        "\x27, \x27adversarial\x27]"
        (by decide)
    · exact msg_decomp s _
        "[\x27self_critique\x27, \x27alternative_generation\x27, \x27confidence_assessment\x27, \x27verification\x27, \x27"
        "\x27]"
        (by decide)

theorem reflect_invalid_strategy_witness :
    reflect stubGen "q" "not_a_strategy" 2 =
      .error (.invalidStrategy (invalidStrategyMessage "not_a_strategy")) ∧
    (∃ a b : String,
      invalidStrategyMessage "not_a_strategy" = a ++ ("self_critique" ++ b)) := by
  have h := reflect_invalid_strategy stubGen "q" "not_a_strategy" 2 (by decide)
  exact ⟨h.1, h.2.2 "self_critique" (by decide)⟩

/-- Claim C6: in every successful `reflect` call, the prompt of reflection
round k (recorded in its iteration record and sent to the generation
capability) is `build_prompt` applied to the resolved strategy, the original
`user_query`, and the text of round k-1's response (the round-0 text for
k = 1). -/
theorem reflect_prompt_anchoring (gen : GenCapability) (q s : String) (n : Int)
    (st : ReflectionStrategy) (r : ReflectionResult)
    (hs : ReflectionStrategy.fromString s = some st)
    (h : reflect gen q s n = .ok r) :
    ∃ r0 : LLMResponse, gen 0 q = .ok r0 ∧
      (∀ h0 : 0 < r.iterations.length,
        (r.iterations.get ⟨0, h0⟩).prompt = build_prompt st q r0.text) ∧
      (∀ (j : Nat) (hj : j + 1 < r.iterations.length),
        (r.iterations.get ⟨j + 1, hj⟩).prompt =
          build_prompt st q ((r.iterations.get ⟨j, by omega⟩).response)) ∧
      (∀ (j : Nat) (hj : j < r.iterations.length),
        ∃ resp, gen (j + 1) ((r.iterations.get ⟨j, hj⟩).prompt) = .ok resp ∧
          resp.text = (r.iterations.get ⟨j, hj⟩).response) := by
  obtain ⟨r0, rs, h0, hlen, hchain, _, _, hiters, _, _⟩ :=
    reflect_ok_spec gen q s n st r hs h
  refine ⟨r0, h0, ?_, ?_, ?_⟩
  · rw [hiters]
    intro hz
    exact chainRecords_prompt_zero st q rs r0 0 hz
  · intro j
    rw [hiters]
    intro hj
    exact chainRecords_prompt_succ st q rs r0 0 j hj
  · intro j
    rw [hiters]
    intro hj
    have hj' : j < rs.length := by
      rw [chainRecords_length] at hj
      exact hj
    obtain ⟨hcall, hresp⟩ := isChain_get gen st q rs r0 0 hchain j hj' hj
    refine ⟨rs.get ⟨j, hj'⟩, ?_, hresp.symm⟩
    have : 0 + j + 1 = j + 1 := by omega
    rw [this] at hcall
    exact hcall

theorem reflect_prompt_anchoring_witness :
    ∃ r, reflect stubGen "q" "adversarial" 2 = .ok r ∧
      ∃ r0 : LLMResponse, stubGen 0 "q" = .ok r0 ∧
        (∀ h0 : 0 < r.iterations.length,
          (r.iterations.get ⟨0, h0⟩).prompt = build_prompt .ADVERSARIAL "q" r0.text) ∧
        (∀ (j : Nat) (hj : j + 1 < r.iterations.length),
          (r.iterations.get ⟨j + 1, hj⟩).prompt =
            build_prompt .ADVERSARIAL "q" ((r.iterations.get ⟨j, by omega⟩).response)) ∧
        (∀ (j : Nat) (hj : j < r.iterations.length),
          ∃ resp, stubGen (j + 1) ((r.iterations.get ⟨j, hj⟩).prompt) = .ok resp ∧
            resp.text = (r.iterations.get ⟨j, hj⟩).response) :=
  ⟨_, rfl, reflect_prompt_anchoring stubGen "q" "adversarial" 2 .ADVERSARIAL _ rfl rfl⟩

/-- Claim C7: `normalize_usage` with provider `"bedrock"` reads
`inputTokens` / `outputTokens` (default 0) and computes `total_tokens` as their
sum instead of reading it; in particular
`normalize_usage({inputTokens: 10, outputTokens: 20}, "bedrock")` yields
`{input_tokens: 10, output_tokens: 20, total_tokens: 30}`. -/
theorem normalize_usage_bedrock_spec :
    (∀ d : List (String × Int), normalize_usage d "bedrock" =
      [("input_tokens", dictGet d "inputTokens" 0),
       ("output_tokens", dictGet d "outputTokens" 0),
       ("total_tokens", dictGet d "inputTokens" 0 + dictGet d "outputTokens" 0)]) ∧
    normalize_usage [("inputTokens", 10), ("outputTokens", 20)] "bedrock" =
      [("input_tokens", 10), ("output_tokens", 20), ("total_tokens", 30)] ∧
    normalize_usage [("inputTokens", 10), ("outputTokens", 20), ("total_tokens", 99)]
        "bedrock" =
      [("input_tokens", 10), ("output_tokens", 20), ("total_tokens", 30)] :=
  ⟨fun _ => rfl, rfl, rfl⟩

/-- Claim C8: `normalize_usage` with provider `"openai"` or `"ollama"` reads
input from `prompt_tokens` (falling back to `inputTokens`, then 0), output from
`completion_tokens` (falling back to `outputTokens`, then 0), and reads
`total_tokens` directly from the raw mapping with default 0 — never recomputing
it from the other two fields. -/
theorem normalize_usage_openai_ollama_spec :
    (∀ d : List (String × Int),
      normalize_usage d "openai" =
        [("input_tokens", dictGet d "prompt_tokens" (dictGet d "inputTokens" 0)),
         ("output_tokens", dictGet d "completion_tokens" (dictGet d "outputTokens" 0)),
         ("total_tokens", dictGet d "total_tokens" 0)] ∧
      normalize_usage d "ollama" =
        [("input_tokens", dictGet d "prompt_tokens" (dictGet d "inputTokens" 0)),
         ("output_tokens", dictGet d "completion_tokens" (dictGet d "outputTokens" 0)),
         ("total_tokens", dictGet d "total_tokens" 0)]) ∧
    normalize_usage [("prompt_tokens", 10), ("completion_tokens", 20), ("total_tokens", 30)]
        "openai" =
      [("input_tokens", 10), ("output_tokens", 20), ("total_tokens", 30)] ∧
    normalize_usage [("prompt_tokens", 10), ("completion_tokens", 20)] "openai" =
      [("input_tokens", 10), ("output_tokens", 20), ("total_tokens", 0)] ∧
    normalize_usage [("inputTokens", 4), ("outputTokens", 6)] "ollama" =
      [("input_tokens", 4), ("output_tokens", 6), ("total_tokens", 0)] :=
  ⟨fun _ => ⟨rfl, rfl⟩, rfl, rfl, rfl⟩

/-- Claim C9: `normalize_usage` is total and pure; for every input mapping and
every provider tag it returns a mapping with exactly the three canonical keys
in order, missing source fields default to 0, and every unrecognized tag takes
the generic fallback chain `input_tokens` → `inputTokens` → `prompt_tokens`
(symmetrically for output), with `total_tokens` read directly. -/
theorem normalize_usage_shape_spec :
    (∀ (d : List (String × Int)) (p : String),
      (normalize_usage d p).map Prod.fst =
        ["input_tokens", "output_tokens", "total_tokens"]) ∧
    (∀ (d : List (String × Int)) (p : String),
      p ≠ "bedrock" → p ≠ "openai" → p ≠ "ollama" →
      normalize_usage d p =
        [("input_tokens",
           dictGet d "input_tokens"
             (dictGet d "inputTokens" (dictGet d "prompt_tokens" 0))),
         ("output_tokens",
           dictGet d "output_tokens"
             (dictGet d "outputTokens" (dictGet d "completion_tokens" 0))),
         ("total_tokens", dictGet d "total_tokens" 0)]) ∧
    (∀ p : String, normalize_usage [] p =
      [("input_tokens", 0), ("output_tokens", 0), ("total_tokens", 0)]) := by
  refine ⟨?_, ?_, ?_⟩
  · intro d p
    unfold normalize_usage
    split
    · rfl
    · split
      · rfl
      · rfl
  · intro d p h1 h2 h3
    have b1 : (p == "bedrock") = false := beq_eq_false_iff_ne.mpr h1
    have b2 : (p == "openai") = false := beq_eq_false_iff_ne.mpr h2
    have b3 : (p == "ollama") = false := beq_eq_false_iff_ne.mpr h3
    simp [normalize_usage, b1, b2, b3]
  · intro p
    unfold normalize_usage
    split
    · rfl
    · split
      · rfl
      · rfl

theorem normalize_usage_shape_spec_witness :
    (normalize_usage [("weird_key", 7)] "some_future_provider").map Prod.fst =
      ["input_tokens", "output_tokens", "total_tokens"] ∧
    normalize_usage [("inputTokens", 5), ("completion_tokens", 9), ("total_tokens", 99)]
        "some_future_provider" =
      [("input_tokens", 5), ("output_tokens", 9), ("total_tokens", 99)] ∧
    normalize_usage [] "generic" =
      [("input_tokens", 0), ("output_tokens", 0), ("total_tokens", 0)] :=
  ⟨normalize_usage_shape_spec.1 [("weird_key", 7)] "some_future_provider",
   (normalize_usage_shape_spec.2.1 [("inputTokens", 5), ("completion_tokens", 9),
      ("total_tokens", 99)] "some_future_provider"
      (by decide) (by decide) (by decide)).trans rfl,
   normalize_usage_shape_spec.2.2 "generic"⟩

/-- Claim C10: for every negative `num_iterations`, `reflect` raises nothing
on account of the bound and behaves exactly as with `num_iterations = 0`: one
round-0 generation call, empty `iterations`, `final_response` equal to the
round-0 text, and only the round-0 tokens counted. -/
theorem reflect_negative_iterations (gen : GenCapability) (q s : String) (n : Int)
    (hn : n < 0) :
    reflect gen q s n = reflect gen q s 0 ∧
    (∀ st : ReflectionStrategy, ReflectionStrategy.fromString s = some st →
      ∀ r0 : LLMResponse, gen 0 q = .ok r0 →
        reflect gen q s n = .ok
          { original_query := q, iterations := [], final_response := r0.text,
            strategy_used := st,
            total_tokens := dictGet r0.usage "output_tokens" 0 +
              dictGet r0.usage "input_tokens" 0 }) := by
  have ht : n.toNat = 0 := by omega
  constructor
  · unfold reflect
    rw [ht]
    rfl
  · intro st hst r0 h0
    unfold reflect
    rw [hst]
    dsimp only
    rw [h0]
    dsimp only
    rw [ht]
    rfl

theorem reflect_negative_iterations_witness :
    reflect stubGen "q" "self_critique" (-3) = reflect stubGen "q" "self_critique" 0 ∧
    reflect stubGen "q" "self_critique" (-3) = .ok
      { original_query := "q", iterations := [],
        final_response := (stubResponse 0).text,
        strategy_used := .SELF_CRITIQUE, total_tokens := 3 } := by
  have h := reflect_negative_iterations stubGen "q" "self_critique" (-3) (by decide)
  exact ⟨h.1, h.2 .SELF_CRITIQUE rfl (stubResponse 0) rfl⟩

end LLMManager
